import Mathlib

/-!
Shallow embedding of `src/hashcode_pizza/genetic.py` (the genetic-algorithm
core of perdy/hashcode-pizza), together with theorems settling the frozen
claims about it.

Modelling decisions, each tied to the source:

* `Individual` (genetic.py lines 40-68) is an abstract contract with three
  operations (`fitness`, `mutate`, `breed`).  No concrete implementation is
  part of the core, so the embedding is parameterised by a type `α` of
  individuals and an `IndividualOps α` record supplying the three operations.
  The operations are modelled as pure functions of the individual: the core
  treats them as opaque calls, and fixing the random source (which the claims
  under study do) makes each call a function of its argument.

* Python's global random source (`random.random` and `random.randint`) is made
  explicit as a `RandState`: a stream of `random()` float draws (modelled as
  rationals, with in-range draws `0 ≤ q < 1` stated as hypotheses where they
  matter) and a stream of raw natural draws from which `randint(0, hi)` takes
  a residue modulo `hi + 1`.  Every possible sequence of Python draws is
  realised by some `RandState`.

* Python floats for fitness values and rates are modelled as `ℚ`: the code
  only multiplies, compares and truncates them, and no claim involves
  floating-point rounding.

* `random.randint(0, hi)` with `hi < 0` raises `ValueError` in Python
  (empty range); this and the other runtime faults are modelled with
  `Except GAError`.  The unbounded `while mother == father` rejection loop in
  `Population.breed` (lines 96-97) is given an explicit fuel parameter;
  running out of fuel models nontermination of that loop and is kept distinct
  from `ValueError`.

* `sorted(..., key=lambda x: x.fitness, reverse=True)` (lines 117 and 134) is
  a stable sort by descending fitness.  A stable sort with respect to a total
  preorder is extensionally unique, so it is modelled by Mathlib's
  `List.insertionSort` (structurally recursive, hence computable) on the
  relation `fitnessDesc`, whose stability and sortedness are proved in
  Mathlib.
-/

namespace HashcodePizza

/-- Contract of `Individual` (genetic.py lines 40-68): a fitness score, a
mutation operator and a crossover operator, all opaque to the core. -/
structure IndividualOps (α : Type) where
  fitness : α → ℚ
  mutate : α → α
  breed : α → α → α

/-- Explicit model of Python's shared random source: a stream of `random()`
draws (`floats`) and a stream of raw draws for `randint` (`nats`), with
cursors recording how many draws of each kind were consumed. -/
structure RandState where
  floats : Nat → ℚ
  nats : Nat → Nat
  fpos : Nat
  npos : Nat

/-- Consume one `random()` draw. -/
def RandState.nextFloat (g : RandState) : ℚ × RandState :=
  (g.floats g.fpos, { g with fpos := g.fpos + 1 })

/-- Runtime faults of the genetic core.  `valueError` models Python's
`ValueError` (raised by `randint` on an empty range, and by `range` on a zero
step); `loopLimit` models nontermination of the `while mother == father`
rejection loop (fuel exhaustion); `indexError` models `IndexError` from
indexing an empty list.  `invalidParameter` is modelled from the spec: the
`InvalidParameter` error kind of spec §7; no code path in
`src/hashcode_pizza/genetic.py` constructs it. -/
inductive GAError where
  | valueError
  | loopLimit
  | indexError
  | invalidParameter
deriving DecidableEq

/-- Python's `randint(0, hi)`: raises `ValueError` when `hi < 0`, otherwise
returns a value in `[0, hi]`, modelled as the next raw draw reduced modulo
`hi + 1`. -/
def randint0 (hi : Int) (g : RandState) : Except GAError (Nat × RandState) :=
  if hi < 0 then .error .valueError
  else .ok (g.nats g.npos % (hi.toNat + 1), { g with npos := g.npos + 1 })

/-- Descending-fitness comparison used by both `sorted(...)` calls in
`Population.evolve` (genetic.py lines 117 and 134). -/
def fitnessDesc {α : Type} (f : α → ℚ) : α → α → Prop := fun a b => f b ≤ f a

instance {α : Type} (f : α → ℚ) : DecidableRel (fitnessDesc f) :=
  fun a b => inferInstanceAs (Decidable (f b ≤ f a))

/-- Python's `sorted(individuals, key=lambda x: x.fitness, reverse=True)`:
the stable sort by descending fitness, modelled by insertion sort (the stable
sort with respect to a total preorder is extensionally unique). -/
def sortByFitnessDesc {α : Type} (f : α → ℚ) (l : List α) : List α :=
  List.insertionSort (fitnessDesc f) l

/-- Python's `int(len(individuals) * retain)` (genetic.py line 120): the
number of unconditionally retained parents.  `int()` truncates toward zero,
which for the nonnegative products arising from `retain ∈ [0,1]` is the
floor. -/
def retainCount (n : Nat) (retain : ℚ) : Nat :=
  (⌊(n : ℚ) * retain⌋).toNat

/-- The list comprehension `[i for i in individuals if random_select > random()]`
(genetic.py line 124): one `random()` draw per element of `rest`, keeping the
element when the rate exceeds the draw. -/
def selectLoop {α : Type} (rate : ℚ) : List α → RandState → List α × RandState
  | [], g => ([], g)
  | x :: xs, g =>
    let fg := g.nextFloat
    let rg := selectLoop rate xs fg.2
    (if rate > fg.1 then x :: rg.1 else rg.1, rg.2)

/-- The comprehension in `Population.mutate` (genetic.py line 82):
`[individual.mutate() if rate > random() else individual for individual in parents]`,
one `random()` draw per parent. -/
def mutateLoop {α : Type} (ops : IndividualOps α) (rate : ℚ) :
    List α → RandState → List α × RandState
  | [], g => ([], g)
  | x :: xs, g =>
    let fg := g.nextFloat
    let rg := mutateLoop ops rate xs fg.2
    ((if rate > fg.1 then ops.mutate x else x) :: rg.1, rg.2)

/-- The `while mother == father` rejection loop of `Population.breed`
(genetic.py lines 95-97): draw `mother = randint(0, hi)` and redraw while it
equals `father`.  The fuel argument bounds the number of draws; exhausting it
models nontermination of the Python loop. -/
def drawMother (father : Nat) (hi : Int) : Nat → RandState → Except GAError (Nat × RandState)
  | 0, _ => .error .loopLimit
  | fuel + 1, g =>
    match randint0 hi g with
    | .error e => .error e
    | .ok (m, g1) => if m = father then drawMother father hi fuel g1 else .ok (m, g1)

/-- One crossover pairing of `Population.breed` (genetic.py lines 94-97):
`father = randint(0, parents_length - 1)`, then `mother` rejection-sampled
until it differs from `father`. -/
def drawPair (parentsLength : Nat) (fuel : Nat) (g : RandState) :
    Except GAError ((Nat × Nat) × RandState) :=
  match randint0 ((parentsLength : Int) - 1) g with
  | .error e => .error e
  | .ok (father, g1) =>
    match drawMother father ((parentsLength : Int) - 1) fuel g1 with
    | .error e => .error e
    | .ok (mother, g2) => .ok ((father, mother), g2)

/-- The `for i in range(len(self.individuals) - len(parents))` loop of
`Population.breed` (genetic.py lines 93-99): `count` children are produced,
each by drawing a (father, mother) index pair into `parents` and breeding the
indexed individuals. -/
def breedLoop {α : Type} (ops : IndividualOps α) (parents : List α) (fuel : Nat) :
    Nat → RandState → Except GAError (List α × RandState)
  | 0, g => .ok ([], g)
  | count + 1, g =>
    match drawPair parents.length fuel g with
    | .error e => .error e
    | .ok (fm, g1) =>
      match parents[fm.1]?, parents[fm.2]? with
      | some pf, some pm =>
        match breedLoop ops parents fuel count g1 with
        | .error e => .error e
        | .ok (cs, g2) => .ok (ops.breed pf pm :: cs, g2)
      | _, _ => .error .indexError

/-- `Population` (genetic.py line 71-72): owns the ordered sequence of
individuals. -/
structure Population (α : Type) where
  individuals : List α

/-- `Population.mutate` (genetic.py lines 74-82).  The method reads no
population state; it maps the per-parent mutation comprehension over
`parents`. -/
def Population.mutate {α : Type} (ops : IndividualOps α) (_self : Population α)
    (rate : ℚ) (parents : List α) (g : RandState) : List α × RandState :=
  mutateLoop ops rate parents g

/-- `Population.breed` (genetic.py lines 84-101): produces
`len(self.individuals) - len(parents)` children (Python's `range` of a
negative count is empty, matching truncated `Nat` subtraction). -/
def Population.breed {α : Type} (ops : IndividualOps α) (self : Population α)
    (parents : List α) (fuel : Nat) (g : RandState) : Except GAError (List α × RandState) :=
  breedLoop ops parents fuel (self.individuals.length - parents.length) g

/-- The slice `individuals[:int(len(individuals) * retain)]` of the sorted
population (genetic.py lines 117-120): the unconditionally retained parents. -/
def retainedSlice {α : Type} (ops : IndividualOps α) (pop : List α) (retain : ℚ) : List α :=
  (sortByFitnessDesc ops.fitness pop).take (retainCount pop.length retain)

/-- The slice `individuals[len(parents):]` (genetic.py line 121): the
remainder of the sorted population after the retained parents. -/
def restSlice {α : Type} (ops : IndividualOps α) (pop : List α) (retain : ℚ) : List α :=
  (sortByFitnessDesc ops.fitness pop).drop (retainedSlice ops pop retain).length

/-- Steps 1-3 of `Population.evolve` (genetic.py lines 117-127): sort, split
off the retained slice, promote members of the rest by per-element Bernoulli
trials, then apply per-parent mutation trials.  Returns the parent pool
handed to `Population.breed` together with the random state after all float
draws. -/
def parentsAfterMutate {α : Type} (ops : IndividualOps α) (pop : List α)
    (retain randomSelect mutate : ℚ) (g : RandState) : List α × RandState :=
  let parents0 := retainedSlice ops pop retain
  let rest := restSlice ops pop retain
  let sg := selectLoop randomSelect rest g
  mutateLoop ops mutate (parents0 ++ sg.1) sg.2

/-- `Population.evolve` (genetic.py lines 103-134), with the population state
threaded explicitly: every statement of the Python method rebinds local names
or calls methods that do not assign `self.individuals`, so the returned
population is the state after executing the method body.  The first component
is the method's return value: the evolved individuals (or the runtime fault
hit on the way), plus the random state after all draws. -/
def Population.evolveM {α : Type} (ops : IndividualOps α) (self : Population α)
    (retain randomSelect mutate : ℚ) (g : RandState) (fuel : Nat) :
    Except GAError (List α × RandState) × Population α :=
  match self.breed ops (parentsAfterMutate ops self.individuals retain randomSelect mutate g).1
      fuel (parentsAfterMutate ops self.individuals retain randomSelect mutate g).2 with
  | .error e => (.error e, self)
  | .ok (children, g3) =>
    (.ok (sortByFitnessDesc ops.fitness
      ((parentsAfterMutate ops self.individuals retain randomSelect mutate g).1 ++ children), g3),
     self)

/-- Return value of `Population.evolve` on a population given as a plain
list. -/
def evolve {α : Type} (ops : IndividualOps α) (pop : List α)
    (retain randomSelect mutate : ℚ) (g : RandState) (fuel : Nat) :
    Except GAError (List α × RandState) :=
  (Population.evolveM ops ⟨pop⟩ retain randomSelect mutate g fuel).1

/-- `Population.best` (genetic.py lines 168-173): `self.individuals[0]`,
which raises `IndexError` on an empty population — modelled as `Option`. -/
def Population.best {α : Type} (self : Population α) : Option α :=
  self.individuals.head?

/-- The `while threshold > self.best.fitness and e < epochs` loop of
`Population.run` (genetic.py lines 161-166), counting down the remaining
epochs.  Each iteration replaces `self.individuals` with the result of one
`evolve` call.  The second component counts the completed `evolve` calls.
Note Python evaluates `self.best.fitness` before checking `e < epochs`, so an
empty population faults even with no epochs remaining. -/
def Population.runLoop {α : Type} (ops : IndividualOps α) (threshold retain select mutate : ℚ)
    (fuel : Nat) : Nat → Population α → RandState →
    (Except GAError (Population α × RandState)) × Nat
  | 0, self, g =>
    match self.best with
    | none => (.error .indexError, 0)
    | some _ => (.ok (self, g), 0)
  | rem + 1, self, g =>
    match self.best with
    | none => (.error .indexError, 0)
    | some x =>
      if threshold > ops.fitness x then
        match self.evolveM ops retain select mutate g fuel with
        | (.error e, _) => (.error e, 0)
        | (.ok (inds, g1), self1) =>
          let res := Population.runLoop ops threshold retain select mutate fuel rem
            { self1 with individuals := inds } g1
          (res.1, res.2 + 1)
      else (.ok (self, g), 0)

/-- `Population.run` (genetic.py lines 136-166).  Before the loop, the
progress-reporting cadence `range(0, epochs, epochs // 10)` is computed
(line 160); Python's `range` raises `ValueError` when its step
`epochs // 10` is zero, which aborts `run` before any evolution step.  The
logging and `gc.collect()` calls have no effect on the population and are not
modelled. -/
def Population.run {α : Type} (ops : IndividualOps α) (self : Population α)
    (threshold : ℚ) (epochs : Nat) (retain select mutate : ℚ) (g : RandState) (fuel : Nat) :
    (Except GAError (Population α × RandState)) × Nat :=
  if epochs / 10 = 0 then (.error .valueError, 0)
  else Population.runLoop ops threshold retain select mutate fuel epochs self g

/-! Concrete instantiation used by witnesses and counterexamples: individuals
are rationals, fitness is the individual itself, mutation adds one, and
breeding averages the two parents. -/

/-- Concrete individual operations for witnesses: `α = ℚ`, fitness is the
value itself, mutation adds 1, breeding averages. -/
def mockOps : IndividualOps ℚ where
  fitness := id
  mutate := fun x => x + 1
  breed := fun x y => (x + y) / 2

/-- Concrete random source: every `random()` draw is 1/2, and the raw
`randint` draws are 0, 1, 2, 3, …. -/
def gHalf : RandState where
  floats := fun _ => (1 : ℚ) / 2
  nats := fun n => n
  fpos := 0
  npos := 0

/-- Random state after the C8 scenario: two selection draws, two mutation
draws (four floats), and four `randint` draws for two crossover pairings. -/
def gEnd8 : RandState := ⟨gHalf.floats, gHalf.nats, 4, 4⟩

/-- Random state after evolving a singleton population with `select = 1`:
one selection draw and one mutation draw, no `randint` draws. -/
def gAfterOne : RandState := ⟨gHalf.floats, gHalf.nats, 2, 0⟩

/-- Random state after one successful crossover pairing on a two-parent
pool: two `randint` draws, no float draws. -/
def gPair : RandState := ⟨gHalf.floats, gHalf.nats, 0, 2⟩

/-- Random state after evolving `[1, 2, 3, 4]` with `retain = 3/4`: four
float draws and two `randint` draws. -/
def gEnd4 : RandState := ⟨gHalf.floats, gHalf.nats, 4, 2⟩

section Lemmas

variable {α : Type}

instance (f : α → ℚ) : IsTotal α (fitnessDesc f) :=
  ⟨fun a b => le_total (f b) (f a)⟩

instance (f : α → ℚ) : IsTrans α (fitnessDesc f) :=
  ⟨fun _ _ _ hab hbc => le_trans hbc hab⟩

theorem sortByFitnessDesc_sorted (f : α → ℚ) (l : List α) :
    List.Sorted (fitnessDesc f) (sortByFitnessDesc f l) :=
  List.sorted_insertionSort (fitnessDesc f) l

theorem sortByFitnessDesc_length (f : α → ℚ) (l : List α) :
    (sortByFitnessDesc f l).length = l.length :=
  List.length_insertionSort (fitnessDesc f) l

theorem selectLoop_length_le (rate : ℚ) (l : List α) (g : RandState) :
    (selectLoop rate l g).1.length ≤ l.length := by
  induction l generalizing g with
  | nil => simp [selectLoop]
  | cons x xs ih =>
    simp only [selectLoop, List.length_cons]
    split
    · simpa using Nat.succ_le_succ (ih _)
    · exact Nat.le_succ_of_le (ih _)

theorem selectLoop_zero (l : List α) (g : RandState) (hg : ∀ n, 0 ≤ g.floats n) :
    (selectLoop 0 l g).1 = [] := by
  induction l generalizing g with
  | nil => simp [selectLoop]
  | cons x xs ih =>
    simp only [selectLoop, RandState.nextFloat]
    rw [if_neg (not_lt.mpr (hg g.fpos))]
    exact ih _ hg

theorem mutateLoop_length (ops : IndividualOps α) (rate : ℚ) (l : List α) (g : RandState) :
    (mutateLoop ops rate l g).1.length = l.length := by
  induction l generalizing g with
  | nil => simp [mutateLoop]
  | cons x xs ih => simp [mutateLoop, ih]

theorem retainedSlice_length_le (ops : IndividualOps α) (pop : List α) (r : ℚ) :
    (retainedSlice ops pop r).length ≤ pop.length := by
  unfold retainedSlice
  simp only [List.length_take, sortByFitnessDesc_length]
  omega

theorem restSlice_length (ops : IndividualOps α) (pop : List α) (r : ℚ) :
    (restSlice ops pop r).length = pop.length - (retainedSlice ops pop r).length := by
  unfold restSlice
  simp [sortByFitnessDesc_length]

theorem parentsAfterMutate_length_le (ops : IndividualOps α) (pop : List α)
    (r s m : ℚ) (g : RandState) :
    (parentsAfterMutate ops pop r s m g).1.length ≤ pop.length := by
  unfold parentsAfterMutate
  have h1 := retainedSlice_length_le ops pop r
  have h2 := selectLoop_length_le s (restSlice ops pop r) g
  have h3 := restSlice_length ops pop r
  simp only [mutateLoop_length, List.length_append]
  omega

theorem breedLoop_ok_length (ops : IndividualOps α) (parents : List α) (fuel : Nat) :
    ∀ (count : Nat) (g : RandState) (cs : List α) (g2 : RandState),
      breedLoop ops parents fuel count g = .ok (cs, g2) → cs.length = count := by
  intro count
  induction count with
  | zero =>
    intro g cs g2 h
    simp only [breedLoop, Except.ok.injEq, Prod.mk.injEq] at h
    simp [← h.1]
  | succ n ih =>
    intro g cs g2 h
    simp only [breedLoop] at h
    split at h
    · exact absurd h (by simp)
    · split at h
      · split at h
        · exact absurd h (by simp)
        · simp only [Except.ok.injEq, Prod.mk.injEq] at h
          obtain ⟨hcs, -⟩ := h
          next _ _ _ _ _ _ heq =>
            simpa [← hcs] using ih _ _ _ heq
      · exact absurd h (by simp)

theorem evolveM_ok_exists_sort (ops : IndividualOps α) (self : Population α)
    (r s m : ℚ) (g : RandState) (fuel : Nat) (l : List α) (g2 : RandState)
    (h : (Population.evolveM ops self r s m g fuel).1 = .ok (l, g2)) :
    ∃ xs : List α, l = sortByFitnessDesc ops.fitness xs
      ∧ xs.length = self.individuals.length := by
  unfold Population.evolveM at h
  split at h
  · exact absurd h (by simp)
  · next children g3 heq =>
    simp only [Except.ok.injEq, Prod.mk.injEq] at h
    obtain ⟨hl, -⟩ := h
    refine ⟨_, hl.symm, ?_⟩
    have hc := breedLoop_ok_length ops _ fuel _ _ _ _ heq
    have hp := parentsAfterMutate_length_le ops self.individuals r s m g
    simp only [List.length_append, hc]
    omega

theorem sorted_take_drop_rel {β : Type} {rel : β → β → Prop} {l : List β}
    (h : List.Sorted rel l) (k : Nat) {x y : β}
    (hx : x ∈ l.take k) (hy : y ∈ l.drop (l.take k).length) : rel x y := by
  have hEq : l.take (l.take k).length = l.take k := by
    rw [List.length_take]
    rcases le_total k l.length with hkl | hkl
    · rw [min_eq_left hkl]
    · rw [min_eq_right hkl, List.take_length, List.take_of_length_le hkl]
  exact h.rel_of_mem_take_of_mem_drop (by rw [hEq]; exact hx) hy

theorem retainCount_le (n : Nat) (r : ℚ) (h1 : r ≤ 1) : retainCount n r ≤ n := by
  unfold retainCount
  have hfl : ⌊(n : ℚ) * r⌋ ≤ (n : Int) := by
    calc ⌊(n : ℚ) * r⌋ ≤ ⌊(n : ℚ)⌋ :=
          Int.floor_le_floor (mul_le_of_le_one_right (by positivity) h1)
      _ = (n : Int) := Int.floor_natCast n
  omega

theorem drawMother_ne {father : Nat} {hi : Int} :
    ∀ {fuel : Nat} {g : RandState} {m : Nat} {g2 : RandState},
      drawMother father hi fuel g = .ok (m, g2) → m ≠ father := by
  intro fuel
  induction fuel with
  | zero => intro g m g2 h; simp [drawMother] at h
  | succ n ih =>
    intro g m g2 h
    rw [drawMother] at h
    split at h
    · exact absurd h (by simp)
    · split at h
      · exact ih h
      · rename_i hne
        simp only [Except.ok.injEq, Prod.mk.injEq] at h
        obtain ⟨rfl, -⟩ := h
        exact hne

end Lemmas

section Claims

variable {α : Type}

/-- Claim C1, counterexample: at the concrete population `[1, 2]` of size
`N = 2` with rates `retain = 0`, `random_select = 0`, `mutate_rate = 0` — all
in `[0, 1]` — `evolve` does not return a sequence of 2 individuals: it fails
with the `ValueError` raised by `randint(0, -1)` on the empty parent pool,
returning no sequence at all. -/
theorem evolve_size_counterexample :
    evolve mockOps [(1 : ℚ), 2] 0 0 0 gHalf 100 = .error .valueError
    ∧ (evolve mockOps [(1 : ℚ), 2] 0 0 0 gHalf 100).toOption = none := by
  have h : evolve mockOps [(1 : ℚ), 2] 0 0 0 gHalf 100 = .error .valueError := by
    norm_num [evolve, Population.evolveM, parentsAfterMutate, Population.mutate,
      Population.breed, retainedSlice, restSlice, retainCount, sortByFitnessDesc, fitnessDesc,
      selectLoop, mutateLoop, breedLoop, drawPair, drawMother, randint0, Int.toNat, RandState.nextFloat,
      gHalf, mockOps]
  exact ⟨h, by rw [h]; rfl⟩

/-- Claim C1 (amended): for every population and all rate values, every
`evolve` call that returns (rather than raising `ValueError` on an empty
parent pool, or failing to terminate on a single-member pool) returns a
sequence of exactly `N = pop.length` individuals — the epoch replaces but
never grows or shrinks the population size. -/
theorem evolve_ok_length (ops : IndividualOps α) (pop : List α) (r s m : ℚ)
    (g : RandState) (fuel : Nat) (l : List α) (g2 : RandState)
    (h : evolve ops pop r s m g fuel = .ok (l, g2)) : l.length = pop.length := by
  obtain ⟨xs, hl, hlen⟩ := evolveM_ok_exists_sort ops ⟨pop⟩ r s m g fuel l g2 h
  rw [hl, sortByFitnessDesc_length]
  exact hlen

/-- Witness for `evolve_ok_length`: the concrete `evolve` run of the C8
scenario succeeds and returns a population of the input's size 4. -/
theorem evolve_ok_length_witness :
    evolve mockOps [(10 : ℚ), 8, 4, 2] (1/2) 0 0 gHalf 10 = .ok ([10, 9, 9, 8], gEnd8)
    ∧ ([(10 : ℚ), 9, 9, 8]).length = ([(10 : ℚ), 8, 4, 2]).length := by
  have h : evolve mockOps [(10 : ℚ), 8, 4, 2] (1/2) 0 0 gHalf 10 = .ok ([10, 9, 9, 8], gEnd8) := by
    norm_num [evolve, Population.evolveM, parentsAfterMutate, Population.mutate,
      Population.breed, retainedSlice, restSlice, retainCount, sortByFitnessDesc, fitnessDesc,
      selectLoop, mutateLoop, breedLoop, drawPair, drawMother, randint0, Int.toNat, RandState.nextFloat,
      gHalf, gEnd8, mockOps]
  exact ⟨h, evolve_ok_length mockOps [(10 : ℚ), 8, 4, 2] (1/2) 0 0 gHalf 10 _ gEnd8 h⟩

/-- Claim C2: every `evolve` call that returns yields a sequence sorted by
fitness in descending order: `individuals[i].fitness ≥ individuals[i+1].fitness`
for every valid index `i`. -/
theorem evolve_ok_sorted (ops : IndividualOps α) (pop : List α) (r s m : ℚ)
    (g : RandState) (fuel : Nat) (l : List α) (g2 : RandState)
    (h : evolve ops pop r s m g fuel = .ok (l, g2)) :
    List.Sorted (fitnessDesc ops.fitness) l
    ∧ ∀ i (hi : i + 1 < l.length),
        ops.fitness (l.get ⟨i + 1, hi⟩) ≤ ops.fitness (l.get ⟨i, Nat.lt_of_succ_lt hi⟩) := by
  obtain ⟨xs, hl, -⟩ := evolveM_ok_exists_sort ops ⟨pop⟩ r s m g fuel l g2 h
  have hs : List.Sorted (fitnessDesc ops.fitness) l := hl ▸ sortByFitnessDesc_sorted ops.fitness xs
  refine ⟨hs, fun i hi => ?_⟩
  exact hs.rel_get_of_lt (by simp)

/-- Witness for `evolve_ok_sorted`: a concrete successful `evolve` run with
`retain = 3/4`, whose 4-element result is proved sorted by the theorem. -/
theorem evolve_ok_sorted_witness :
    List.Sorted (fitnessDesc mockOps.fitness) [(4 : ℚ), 7/2, 3, 2] :=
  (evolve_ok_sorted mockOps [(1 : ℚ), 2, 3, 4] (3/4) 0 0 gHalf 10 [4, 7/2, 3, 2] gEnd4
    (by norm_num [evolve, Population.evolveM, parentsAfterMutate, Population.mutate,
      Population.breed, retainedSlice, restSlice, retainCount, sortByFitnessDesc, fitnessDesc,
      selectLoop, mutateLoop, breedLoop, drawPair, drawMother, randint0, Int.toNat, RandState.nextFloat,
      gHalf, gEnd4, mockOps])).1

/-- Claim C3, counterexample: at the concrete population `[3]` (size
`N = 1 ≥ 1`) with `retain = 0`, `random_select = 0`, the `evolve` call fails
with `ValueError` (raised by `randint(0, -1)`), not with the spec's
`InvalidParameter` error — no code path in `genetic.py` raises such an
error. -/
theorem evolve_empty_pool_counterexample :
    evolve mockOps [(3 : ℚ)] 0 0 (1/2) gHalf 100 = .error .valueError
    ∧ GAError.valueError ≠ GAError.invalidParameter := by
  constructor
  · norm_num [evolve, Population.evolveM, parentsAfterMutate, Population.mutate,
      Population.breed, retainedSlice, restSlice, retainCount, sortByFitnessDesc, fitnessDesc,
      selectLoop, mutateLoop, breedLoop, drawPair, drawMother, randint0, Int.toNat, RandState.nextFloat,
      gHalf, mockOps]
  · decide

/-- Claim C3 (amended): calling `evolve` with `retain = 0` and
`random_select = 0` on any population of size `N ≥ 1` (with the `random()`
draws nonnegative, as they are in Python) fails immediately with the
`ValueError` raised by `randint` on an empty range — it neither hangs in a
loop nor crashes with an out-of-range index, but it also raises no
`InvalidParameter`. -/
theorem evolve_empty_pool_valueError (ops : IndividualOps α) (pop : List α) (m : ℚ)
    (g : RandState) (fuel : Nat) (hlen : 1 ≤ pop.length) (hg : ∀ n, 0 ≤ g.floats n) :
    evolve ops pop 0 0 m g fuel = .error .valueError := by
  have hrc : retainCount pop.length 0 = 0 := by
    simp [retainCount]
  have hret : retainedSlice ops pop 0 = [] := by
    simp [retainedSlice, hrc]
  have hsel : (selectLoop 0 (restSlice ops pop 0) g).1 = [] :=
    selectLoop_zero _ g hg
  have hpam : parentsAfterMutate ops pop 0 0 m g
      = ([], (selectLoop 0 (restSlice ops pop 0) g).2) := by
    simp [parentsAfterMutate, hret, hsel, mutateLoop]
  obtain ⟨k, hk⟩ : ∃ k, pop.length = k + 1 := ⟨pop.length - 1, by omega⟩
  unfold evolve Population.evolveM Population.breed
  rw [hpam]
  simp only [hk, List.length_nil, Nat.sub_zero, breedLoop, drawPair, randint0,
    List.length_nil]
  norm_num

/-- Witness for `evolve_empty_pool_valueError`: the concrete population
`[1, 2]` with `retain = 0`, `random_select = 0` and draws of 1/2. -/
theorem evolve_empty_pool_valueError_witness :
    1 ≤ ([(1 : ℚ), 2]).length
    ∧ evolve mockOps [(1 : ℚ), 2] 0 0 (3/4) gHalf 50 = .error .valueError :=
  ⟨by decide,
   evolve_empty_pool_valueError mockOps [(1 : ℚ), 2] (3/4) gHalf 50 (by decide)
     (fun n => by norm_num [gHalf])⟩

/-- Claim C5: for every population and `retain = r ∈ [0, 1]`, the
unconditionally-retained parent slice taken in step 2 of `evolve` contains
exactly `⌊N * r⌋` individuals, and they are the highest-fitness ones: each
retained individual's fitness is at least that of every individual left in
the rest, before random selection and mutation are applied. -/
theorem retainedSlice_spec (ops : IndividualOps α) (pop : List α) (r : ℚ)
    (_h0 : 0 ≤ r) (h1 : r ≤ 1) :
    (retainedSlice ops pop r).length = (⌊(pop.length : ℚ) * r⌋).toNat
    ∧ ∀ a ∈ retainedSlice ops pop r, ∀ b ∈ restSlice ops pop r,
        ops.fitness b ≤ ops.fitness a := by
  constructor
  · have hle : retainCount pop.length r ≤ pop.length := retainCount_le pop.length r h1
    simp only [retainedSlice, List.length_take, sortByFitnessDesc_length]
    unfold retainCount at hle ⊢
    omega
  · intro a ha b hb
    have hsorted := sortByFitnessDesc_sorted ops.fitness pop
    unfold retainedSlice at ha
    unfold restSlice retainedSlice at hb
    exact sorted_take_drop_rel hsorted (retainCount pop.length r) ha hb

/-- Witness for `retainedSlice_spec`: the C8 population `[10, 8, 4, 2]` with
`retain = 1/2` retains exactly `⌊4 · 1/2⌋ = 2` individuals. -/
theorem retainedSlice_spec_witness :
    0 ≤ (1/2 : ℚ) ∧ (1/2 : ℚ) ≤ 1
    ∧ (retainedSlice mockOps [(10 : ℚ), 8, 4, 2] (1/2)).length
        = (⌊((([(10 : ℚ), 8, 4, 2]).length : ℚ)) * (1/2)⌋).toNat :=
  ⟨by norm_num, by norm_num,
   (retainedSlice_spec mockOps [(10 : ℚ), 8, 4, 2] (1/2) (by norm_num) (by norm_num)).1⟩

/-- Claim C6: every crossover pairing performed by `evolve`'s fill step
(`drawPair`, the father/mother index choice of `Population.breed`) that
completes yields two distinct indices into the parent pool: the mother index
is rejection-sampled until it differs from the father index.  Only index
inequality is guaranteed; when the pool holds duplicate individuals the two
indices may carry equal values.  The theorem is unconditional on the pool
size: whenever the pairing completes, the indices differ. -/
theorem drawPair_distinct (p fuel : Nat) (g : RandState) (fa mo : Nat) (g2 : RandState)
    (h : drawPair p fuel g = .ok ((fa, mo), g2)) : fa ≠ mo := by
  unfold drawPair at h
  split at h
  · exact absurd h (by simp)
  · split at h
    · exact absurd h (by simp)
    · simp only [Except.ok.injEq, Prod.mk.injEq] at h
      obtain ⟨⟨rfl, rfl⟩, -⟩ := h
      next _ _ _ heq => exact (drawMother_ne heq).symm

/-- Witness for `drawPair_distinct`: on a pool of two parents with raw draws
0, 1, 2, …, the pairing completes with father index 0 and mother index 1. -/
theorem drawPair_distinct_witness :
    drawPair 2 5 gHalf = .ok ((0, 1), gPair) ∧ (0 : Nat) ≠ 1 :=
  ⟨rfl, drawPair_distinct 2 5 gHalf 0 1 gPair rfl⟩

end Claims

section RunLemmas

variable {α : Type}

theorem runLoop_count_le (ops : IndividualOps α) (thr r s m : ℚ) (fuel : Nat) :
    ∀ (rem : Nat) (self : Population α) (g : RandState),
      (Population.runLoop ops thr r s m fuel rem self g).2 ≤ rem := by
  intro rem
  induction rem with
  | zero =>
    intro self g
    rw [Population.runLoop]
    cases self.best <;> simp
  | succ n ih =>
    intro self g
    rw [Population.runLoop]
    cases hb : self.best with
    | none => simp
    | some x =>
      simp only []
      split
      · split
        · simp
        · simpa using ih _ _
      · simp

theorem runLoop_early_stop (ops : IndividualOps α) (thr r s m : ℚ) (fuel : Nat) :
    ∀ (rem : Nat) (self : Population α) (g : RandState) (p : Population α) (g2 : RandState),
      (Population.runLoop ops thr r s m fuel rem self g).1 = .ok (p, g2) →
      (Population.runLoop ops thr r s m fuel rem self g).2 < rem →
      ∃ x, p.best = some x ∧ thr ≤ ops.fitness x := by
  intro rem
  induction rem with
  | zero =>
    intro self g p g2 _ h2
    exact absurd h2 (Nat.not_lt_zero _)
  | succ n ih =>
    intro self g p g2 h1 h2
    rw [Population.runLoop] at h1 h2
    cases hb : self.best with
    | none => rw [hb] at h1; simp at h1
    | some x =>
      rw [hb] at h1 h2
      dsimp only [] at h1 h2
      by_cases hthr : thr > ops.fitness x
      · rw [if_pos hthr] at h1 h2
        rcases hE : Population.evolveM ops self r s m g fuel with ⟨e | ⟨inds, g1⟩, self1⟩
        · rw [hE] at h1
          simp at h1
        · rw [hE] at h1 h2
          simp only [] at h1 h2
          exact ih _ _ p g2 h1 (by omega)
      · rw [if_neg hthr] at h1
        simp only [Except.ok.injEq, Prod.mk.injEq] at h1
        obtain ⟨rfl, -⟩ := h1
        exact ⟨x, hb, not_lt.mp hthr⟩

theorem runLoop_stop_now (ops : IndividualOps α) (thr r s m : ℚ) (fuel rem : Nat)
    (self : Population α) (g : RandState) (x : α)
    (hb : self.best = some x) (hx : thr ≤ ops.fitness x) :
    Population.runLoop ops thr r s m fuel rem self g = (.ok (self, g), 0) := by
  cases rem with
  | zero => rw [Population.runLoop, hb]
  | succ n =>
    rw [Population.runLoop, hb]
    dsimp only []
    rw [if_neg (not_lt.mpr hx)]

end RunLemmas

section ClaimsRun

variable {α : Type}

/-- Claim C4: `run` performs at most `epochs` evolution iterations even if no
individual ever reaches the threshold; whenever `run` finishes its loop
normally in fewer than `epochs` iterations, the final best individual has
reached the threshold (it stops early only once `best.fitness ≥ threshold`);
and it performs zero `evolve` calls when the initial best already meets the
threshold. -/
theorem run_epoch_bound (ops : IndividualOps α) (self : Population α) (thr : ℚ)
    (epochs : Nat) (r s m : ℚ) (g : RandState) (fuel : Nat) :
    (Population.run ops self thr epochs r s m g fuel).2 ≤ epochs
    ∧ (∀ (p : Population α) (g2 : RandState),
        (Population.run ops self thr epochs r s m g fuel).1 = .ok (p, g2) →
        (Population.run ops self thr epochs r s m g fuel).2 < epochs →
        ∃ x, p.best = some x ∧ thr ≤ ops.fitness x)
    ∧ (∀ x, self.best = some x → thr ≤ ops.fitness x →
        (Population.run ops self thr epochs r s m g fuel).2 = 0) := by
  unfold Population.run
  split
  · exact ⟨Nat.zero_le _, fun p g2 h1 _ => by simp at h1, fun x _ _ => rfl⟩
  · refine ⟨runLoop_count_le ops thr r s m fuel epochs self g,
      fun p g2 h1 h2 => runLoop_early_stop ops thr r s m fuel epochs self g p g2 h1 h2,
      fun x hb hx => ?_⟩
    rw [runLoop_stop_now ops thr r s m fuel epochs self g x hb hx]

/-- Witness for `run_epoch_bound`: a singleton population whose only member
already meets the threshold; `run` performs zero evolve calls. -/
theorem run_epoch_bound_witness :
    (Population.run mockOps ⟨[(10 : ℚ)]⟩ 5 100 0 0 0 gHalf 10).2 ≤ 100
    ∧ (Population.run mockOps ⟨[(10 : ℚ)]⟩ 5 100 0 0 0 gHalf 10).2 = 0 := by
  have h := run_epoch_bound mockOps ⟨[(10 : ℚ)]⟩ 5 100 0 0 0 gHalf 10
  exact ⟨h.1, h.2.2 10 rfl (by norm_num [mockOps])⟩

/-- Claim C7: for any positive `epochs < 10`, the cadence computation
`range(0, epochs, epochs // 10)` divides `epochs` by 10 yielding a zero step,
so `run` fails with Python's `ValueError` before performing any evolution
step (the iteration count is 0), instead of using a safe minimum cadence. -/
theorem run_small_epochs_valueError (ops : IndividualOps α) (self : Population α)
    (thr r s m : ℚ) (g : RandState) (fuel : Nat) (epochs : Nat)
    (h1 : 1 ≤ epochs) (h2 : epochs < 10) :
    Population.run ops self thr epochs r s m g fuel = (.error .valueError, 0) := by
  unfold Population.run
  rw [if_pos (by omega)]

/-- Witness for `run_small_epochs_valueError`: `epochs = 5` with the
documented default rates. -/
theorem run_small_epochs_valueError_witness :
    1 ≤ 5 ∧ 5 < 10
    ∧ Population.run mockOps ⟨[(1 : ℚ)]⟩ (9/10) 5 (2/10) (5/100) (1/100) gHalf 10
        = (.error .valueError, 0) :=
  ⟨by decide, by decide,
   run_small_epochs_valueError mockOps ⟨[(1 : ℚ)]⟩ (9/10) (2/10) (5/100) (1/100) gHalf 10 5
     (by decide) (by decide)⟩

end ClaimsRun

section ClaimsConcrete

variable {α : Type}

/-- Claim C8: for a population of `N = 4` individuals with fitnesses
`[10, 8, 4, 2]` and `retain = 1/2`, the parents after the split step are
exactly the two individuals of fitness 10 and 8; with `random_select = 0` and
`mutate_rate = 0` (and the concrete draw stream `gHalf`), the two children
are produced by breeding those same two parents twice, and the resulting
population has size exactly 4 and is sorted descending by fitness. -/
theorem evolve_concrete_scenario (ops : IndividualOps α) (a b c d : α)
    (ha : ops.fitness a = 10) (hb : ops.fitness b = 8) (hc : ops.fitness c = 4)
    (hd : ops.fitness d = 2) :
    retainedSlice ops [a, b, c, d] (1/2) = [a, b]
    ∧ evolve ops [a, b, c, d] (1/2) 0 0 gHalf 10
        = .ok (sortByFitnessDesc ops.fitness [a, b, ops.breed a b, ops.breed a b], gEnd8)
    ∧ (sortByFitnessDesc ops.fitness [a, b, ops.breed a b, ops.breed a b]).length = 4
    ∧ List.Sorted (fitnessDesc ops.fitness)
        (sortByFitnessDesc ops.fitness [a, b, ops.breed a b, ops.breed a b]) := by
  have hsorted : List.Sorted (fitnessDesc ops.fitness) [a, b, c, d] := by
    norm_num [List.sorted_cons, fitnessDesc, ha, hb, hc, hd]
  have hid : sortByFitnessDesc ops.fitness [a, b, c, d] = [a, b, c, d] :=
    List.Sorted.insertionSort_eq hsorted
  have hret : retainedSlice ops [a, b, c, d] (1/2) = [a, b] := by
    unfold retainedSlice
    rw [hid]
    norm_num [retainCount]
    rfl
  refine ⟨hret, ?_, ?_, sortByFitnessDesc_sorted ops.fitness _⟩
  · norm_num [evolve, Population.evolveM, parentsAfterMutate, Population.breed,
      retainedSlice, restSlice, hid, retainCount, selectLoop, mutateLoop, breedLoop,
      drawPair, drawMother, randint0, Int.toNat, RandState.nextFloat, gHalf, gEnd8]
  · rw [sortByFitnessDesc_length]
    rfl

/-- Witness for `evolve_concrete_scenario`: the scenario instantiated with
rational individuals `10, 8, 4, 2` under `mockOps`. -/
theorem evolve_concrete_scenario_witness :
    retainedSlice mockOps [(10 : ℚ), 8, 4, 2] (1/2) = [10, 8]
    ∧ evolve mockOps [(10 : ℚ), 8, 4, 2] (1/2) 0 0 gHalf 10
        = .ok (sortByFitnessDesc mockOps.fitness
            [10, 8, mockOps.breed 10 8, mockOps.breed 10 8], gEnd8)
    ∧ (sortByFitnessDesc mockOps.fitness
        [(10 : ℚ), 8, mockOps.breed 10 8, mockOps.breed 10 8]).length = 4
    ∧ List.Sorted (fitnessDesc mockOps.fitness)
        (sortByFitnessDesc mockOps.fitness
          [(10 : ℚ), 8, mockOps.breed 10 8, mockOps.breed 10 8]) :=
  evolve_concrete_scenario mockOps 10 8 4 2 rfl rfl rfl rfl

/-- Claim C9: `evolve` is deterministic given a fixed random source — two
runs on equal populations with equal rate parameters consuming the same
sequence of random draws (the same `RandState` and fuel) produce equal
results — and the sort used on the way in and out of every epoch is stable:
individuals with tied fitness keep their order relative to the input. -/
theorem evolve_deterministic_stable (ops : IndividualOps α)
    (pop1 pop2 : List α) (r1 r2 s1 s2 m1 m2 : ℚ) (g1 g2 : RandState) (fuel1 fuel2 : Nat) :
    (pop1 = pop2 → r1 = r2 → s1 = s2 → m1 = m2 → g1 = g2 → fuel1 = fuel2 →
      evolve ops pop1 r1 s1 m1 g1 fuel1 = evolve ops pop2 r2 s2 m2 g2 fuel2)
    ∧ ∀ (l : List α) (x y : α), List.Sublist [x, y] l → ops.fitness x = ops.fitness y →
        List.Sublist [x, y] (sortByFitnessDesc ops.fitness l) := by
  constructor
  · rintro rfl rfl rfl rfl rfl rfl
    rfl
  · intro l x y hsub heq
    exact List.pair_sublist_insertionSort (le_of_eq heq.symm) hsub

/-- Witness for `evolve_deterministic_stable`: the determinism conjunct at a
concrete call and the stability conjunct on the tied pair `[5, 5]`. -/
theorem evolve_deterministic_stable_witness :
    evolve mockOps [(3 : ℚ), 1] 0 0 0 gHalf 7 = evolve mockOps [(3 : ℚ), 1] 0 0 0 gHalf 7
    ∧ List.Sublist [(5 : ℚ), 5] (sortByFitnessDesc mockOps.fitness [(5 : ℚ), 5]) :=
  ⟨(evolve_deterministic_stable mockOps [(3 : ℚ), 1] [(3 : ℚ), 1] 0 0 0 0 0 0 gHalf gHalf 7 7).1
      rfl rfl rfl rfl rfl rfl,
   (evolve_deterministic_stable mockOps [(3 : ℚ), 1] [(3 : ℚ), 1] 0 0 0 0 0 0
      gHalf gHalf 7 7).2 [(5 : ℚ), 5] 5 5 (List.Sublist.refl _) rfl⟩

/-- Claim C10: `evolve` never mutates the population's own state — the
population component returned by the state-threaded `evolveM` is always the
receiver unchanged (no statement of the method assigns `self.individuals`) —
and the stored sequence changes only when `run`'s loop reassigns it: one
iteration of `runLoop` on a below-threshold population continues on exactly
the population whose individuals are the result of the `evolve` call. -/
theorem evolveM_frame (ops : IndividualOps α) :
    (∀ (self : Population α) (r s m : ℚ) (g : RandState) (fuel : Nat),
      (Population.evolveM ops self r s m g fuel).2 = self)
    ∧ ∀ (thr r s m : ℚ) (fuelE rem : Nat) (self : Population α) (x : α) (g : RandState)
        (inds : List α) (g1 : RandState),
        self.best = some x → thr > ops.fitness x →
        (Population.evolveM ops self r s m g fuelE).1 = .ok (inds, g1) →
        Population.runLoop ops thr r s m fuelE (rem + 1) self g
          = ((Population.runLoop ops thr r s m fuelE rem ⟨inds⟩ g1).1,
             (Population.runLoop ops thr r s m fuelE rem ⟨inds⟩ g1).2 + 1) := by
  have hsnd : ∀ (self : Population α) (r s m : ℚ) (g : RandState) (fuel : Nat),
      (Population.evolveM ops self r s m g fuel).2 = self := by
    intro self r s m g fuel
    unfold Population.evolveM
    split <;> rfl
  refine ⟨hsnd, ?_⟩
  intro thr r s m fuelE rem self x g inds g1 hb hthr hok
  have h2 := hsnd self r s m g fuelE
  have hpair : Population.evolveM ops self r s m g fuelE = (.ok (inds, g1), self) := by
    rcases hE : Population.evolveM ops self r s m g fuelE with ⟨res, st⟩
    rw [hE] at hok h2
    simp only [] at hok h2
    rw [hok, h2]
  rw [Population.runLoop, hb]
  dsimp only []
  rw [if_pos hthr, hpair]

/-- Witness for `evolveM_frame`: a concrete below-threshold singleton
population on which `evolveM` succeeds; its state component is unchanged and
`runLoop` steps to the evolved individuals. -/
theorem evolveM_frame_witness :
    (Population.evolveM mockOps ⟨[(1 : ℚ)]⟩ (1/2) 1 0 gHalf 1).2 = ⟨[(1 : ℚ)]⟩
    ∧ (Population.evolveM mockOps ⟨[(1 : ℚ)]⟩ (1/2) 1 0 gHalf 1).1 = .ok ([1], gAfterOne)
    ∧ Population.runLoop mockOps 5 (1/2) 1 0 1 1 ⟨[(1 : ℚ)]⟩ gHalf
        = ((Population.runLoop mockOps 5 (1/2) 1 0 1 0 ⟨[(1 : ℚ)]⟩ gAfterOne).1,
           (Population.runLoop mockOps 5 (1/2) 1 0 1 0 ⟨[(1 : ℚ)]⟩ gAfterOne).2 + 1) := by
  have hE : (Population.evolveM mockOps ⟨[(1 : ℚ)]⟩ (1/2) 1 0 gHalf 1).1
      = .ok ([1], gAfterOne) := by
    norm_num [Population.evolveM, parentsAfterMutate, Population.breed, retainedSlice,
      restSlice, retainCount, sortByFitnessDesc, fitnessDesc, selectLoop, mutateLoop,
      breedLoop, drawPair, drawMother, randint0, Int.toNat, RandState.nextFloat,
      gHalf, gAfterOne, mockOps]
  exact ⟨(evolveM_frame mockOps).1 ⟨[(1 : ℚ)]⟩ (1/2) 1 0 gHalf 1, hE,
    (evolveM_frame mockOps).2 5 (1/2) 1 0 1 0 ⟨[(1 : ℚ)]⟩ 1 gHalf [1] gAfterOne rfl
      (by norm_num [mockOps]) hE⟩

end ClaimsConcrete

end HashcodePizza
